import Mathlib

/-!
Verification of the DVPL container codec and traversal engine of the
`dvpl_lz4` repository, as a shallow embedding in Lean 4.

Bytes are modelled as `Nat` (with `< 256` hypotheses where that matters),
Go `uint32` values are `Nat` with explicit `% 2 ^ 32` wherever Go converts
or wraps.  The LZ4 block encoder/decoder (`github.com/pierrec/lz4/v4`) and
the `hash/crc32` routine are the codec's collaborators: CRC32-IEEE is
implemented here bit-by-bit (the classic definition of the reflected
IEEE polynomial computation, which Go's table-driven implementation
computes), while the LZ4 block codec is kept abstract as an `Lz4`
structure, with its documented contract taken as explicit hypotheses.
-/

namespace Dvpl

/-- The error kinds produced by the codec (the `errors.New` values in
`common/dvpl`); `lz4Error` stands for an error propagated from the
underlying LZ4 library. -/
inductive DErr where
  | invalidFooter
  | sizeMismatch
  | crcMismatch
  | typeSizeMismatch
  | decodeSizeMismatch
  | unknownFormat
  | lz4Error
deriving DecidableEq

/-- Result of running a piece of Go code that can panic, fail with an
error, or succeed.  `panic` models a Go runtime panic (e.g. a slice bound
violation), which aborts the whole program since the repository installs
no `recover`. -/
inductive GoResult (α : Type) where
  | panic : GoResult α
  | err : DErr → GoResult α
  | ok : α → GoResult α
deriving DecidableEq

/-- Constants of the DVPL format, from `common/dvpl`. -/
def dvplFooterSize : Nat := 20

/-- Type tag 0: payload stored verbatim. -/
def dvplTypeNone : Nat := 0

/-- Type tag 2: payload LZ4 block-compressed. -/
def dvplTypeLZ4 : Nat := 2

/-- The ASCII bytes of the magic string `"DVPL"` (the Go constant
`dvplFooter`). -/
def dvplFooterBytes : List Nat := [68, 86, 80, 76]

/-- Model of Go `writeLittleEndianUint32`: the four bytes
`byte(v), byte(v>>8), byte(v>>16), byte(v>>24)` (the Go version writes
them into a slice at an offset; here the four bytes are returned). -/
def writeLittleEndianUint32 (v : Nat) : List Nat :=
  [v % 256, (v >>> 8) % 256, (v >>> 16) % 256, (v >>> 24) % 256]

/-- Model of Go `readLittleEndianUint32`:
`uint32(b[off]) | uint32(b[off+1])<<8 | uint32(b[off+2])<<16 | uint32(b[off+3])<<24`. -/
def readLittleEndianUint32 (b : List Nat) (off : Nat) : Nat :=
  b.getD off 0 ||| (b.getD (off + 1) 0) <<< 8 |||
    (b.getD (off + 2) 0) <<< 16 ||| (b.getD (off + 3) 0) <<< 24

/-- The reflected CRC32-IEEE polynomial, `crc32.IEEE` reversed
(`0xEDB88320`), as used by Go's `hash/crc32` package. -/
def crcPoly : Nat := 0xEDB88320

/-- One bit-step of the reflected CRC32 computation:
`if crc&1 == 1 then crc = crc>>1 ^ poly else crc = crc>>1`. -/
def crcStep (s : Nat) : Nat :=
  if s % 2 = 1 then (s / 2) ^^^ crcPoly else s / 2

/-- Per-byte CRC32 update: xor the byte into the state, then eight bit
steps.  This is the classic bitwise definition of the function the
table-driven `hash/crc32` update computes. -/
def crcByte (s b : Nat) : Nat :=
  crcStep (crcStep (crcStep (crcStep (crcStep (crcStep (crcStep (crcStep (s ^^^ b))))))))

/-- Fold the CRC update over a byte list. -/
def crcLoop : Nat → List Nat → Nat
  | s, [] => s
  | s, b :: rest => crcLoop (crcByte s b) rest

/-- Model of Go `crc32.ChecksumIEEE`: state initialised to `^uint32(0)`,
every byte folded in, final state complemented (complement of a `uint32`
is xor with `0xFFFFFFFF`). -/
def ChecksumIEEE (data : List Nat) : Nat :=
  0xFFFFFFFF ^^^ crcLoop 0xFFFFFFFF data

/-- The DVPL footer structure (`DVPLFooter` in the source; the Go field
`Type` is spelled `typeVal` after the source's `createDVPLFooter`
parameter, since `Type` is reserved in Lean). -/
structure DVPLFooter where
  originalSize : Nat
  compressedSize : Nat
  crc32 : Nat
  typeVal : Nat
deriving DecidableEq

/-- The LZ4 block codec collaborator (`github.com/pierrec/lz4/v4`),
kept abstract.  `compressBlock src` models
`lz4.CompressBlock(src, dst, nil)` with `dst` sized by
`lz4.CompressBlockBound(len(src))`, returning the first `n` written
bytes; `uncompressBlock src dstLen` models
`lz4.UncompressBlock(src, dst)` with `len(dst) = dstLen`, returning the
`n` written bytes (so `n` is the length of the result, at most
`dstLen`). -/
structure Lz4 where
  compressBlock : List Nat → Except Unit (List Nat)
  uncompressBlock : List Nat → Nat → Except Unit (List Nat)

/-- The library guarantee that `lz4.UncompressBlock` cannot write more
bytes than the destination buffer holds. -/
def Lz4.Wf (lz : Lz4) : Prop :=
  ∀ src n r, lz.uncompressBlock src n = .ok r → r.length ≤ n

/-- Model of Go `createDVPLFooter`: the four uint32 fields little-endian
at offsets 0/4/8/12, then the magic at offset 16. -/
def createDVPLFooter (inputSize compressedSize crc32 typeVal : Nat) : List Nat :=
  writeLittleEndianUint32 inputSize ++ writeLittleEndianUint32 compressedSize ++
    writeLittleEndianUint32 crc32 ++ writeLittleEndianUint32 typeVal ++ dvplFooterBytes

/-- Model of Go `readDVPLFooter`.  The source begins with
`footerBuffer := buffer[len(buffer)-dvplFooterSize:]`; when the buffer is
shorter than 20 bytes the slice low bound is negative and Go panics, so
that case is `GoResult.panic`.  Otherwise the last 20 bytes are checked
for the magic (the source's second disjunct
`len(footerBuffer) != dvplFooterSize` is kept although it is always
false here) and the four fields are decoded. -/
def readDVPLFooter (buffer : List Nat) : GoResult DVPLFooter :=
  if buffer.length < dvplFooterSize then .panic
  else
    let footerBuffer := buffer.drop (buffer.length - dvplFooterSize)
    if footerBuffer.drop 16 ≠ dvplFooterBytes ∨ footerBuffer.length ≠ dvplFooterSize then
      .err .invalidFooter
    else
      .ok ⟨readLittleEndianUint32 footerBuffer 0, readLittleEndianUint32 footerBuffer 4,
        readLittleEndianUint32 footerBuffer 8, readLittleEndianUint32 footerBuffer 12⟩

/-- Model of Go `CompressDVPL`: LZ4-compress the buffer, then append a
footer carrying `uint32(len(buffer))`, `uint32(n)`, the CRC32 of the
compressed bytes and the LZ4 type tag. -/
def CompressDVPL (lz : Lz4) (buffer : List Nat) : Except DErr (List Nat) :=
  match lz.compressBlock buffer with
  | .error _ => .error .lz4Error
  | .ok compressedBlock =>
    .ok (compressedBlock ++
      createDVPLFooter (buffer.length % 2 ^ 32) (compressedBlock.length % 2 ^ 32)
        (ChecksumIEEE compressedBlock) dvplTypeLZ4)

/-- Model of Go `DecompressDVPL`: decode the footer, slice off the
payload, check the payload length against `compressed_size`, check the
CRC32, then dispatch on the type tag (0 returns the payload after the
`original_size == compressed_size` check, 2 LZ4-decompresses into a
buffer of `original_size` bytes and demands exactly that many bytes were
produced). -/
def DecompressDVPL (lz : Lz4) (buffer : List Nat) : GoResult (List Nat) :=
  match readDVPLFooter buffer with
  | .panic => .panic
  | .err e => .err e
  | .ok footerData =>
    let targetBlock := buffer.take (buffer.length - dvplFooterSize)
    if targetBlock.length % 2 ^ 32 ≠ footerData.compressedSize then .err .sizeMismatch
    else if ChecksumIEEE targetBlock ≠ footerData.crc32 then .err .crcMismatch
    else if footerData.typeVal = dvplTypeNone then
      if footerData.originalSize ≠ footerData.compressedSize ∨ footerData.typeVal ≠ dvplTypeNone then
        .err .typeSizeMismatch
      else .ok targetBlock
    else if footerData.typeVal = dvplTypeLZ4 then
      match lz.uncompressBlock targetBlock footerData.originalSize with
      | .error _ => .err .lz4Error
      | .ok deDVPLBlock =>
        if deDVPLBlock.length % 2 ^ 32 ≠ footerData.originalSize then .err .decodeSizeMismatch
        else .ok deDVPLBlock
    else .err .unknownFormat

/-- The per-buffer verification step of `VerifyDVPLFiles`
(`_, err = dvpl.DecompressDVPL(fileData)`): run the decompressor and
discard the output. -/
def verifyBuffer (lz : Lz4) (buffer : List Nat) : GoResult Unit :=
  match DecompressDVPL lz buffer with
  | .panic => .panic
  | .err e => .err e
  | .ok _ => .ok ()

/-- Composition `decompress ∘ compress` used to state the round-trip
property. -/
def compressThenDecompress (lz : Lz4) (buffer : List Nat) : GoResult (List Nat) :=
  match CompressDVPL lz buffer with
  | .error e => .err e
  | .ok container => DecompressDVPL lz container

/-- A concrete LZ4 collaborator used to instantiate witnesses: it
"compresses" a block to itself and decompresses by truncating to the
destination size.  It satisfies the `Lz4.Wf` contract and the
per-input round-trip hypotheses at every input. -/
def lzTake : Lz4 where
  compressBlock := fun b => .ok b
  uncompressBlock := fun src n => .ok (src.take n)

/-- Explicit inverse of `crcStep` on 32-bit states: bit 31 of the output
records whether the polynomial was xored in (the shifted state has bit
31 clear while `crcPoly` has it set), which also recovers the shifted-out
low bit. -/
def crcUnstep (t : Nat) : Nat :=
  if t.testBit 31 then 2 * (t ^^^ crcPoly) + 1 else 2 * t

/-!  Traversal engine: the per-file visit of `ProcessFiles` and
`VerifyDVPLFiles`.  Paths are lists of characters; the file's bytes are
supplied as an argument while the actual filesystem accesses the visit
performs are recorded in an explicit operation trace, so "never read
and never written" is "the trace is empty". -/

/-- Paths and strings of the traversal engine. -/
abbrev Str := List Char

/-- The container extension constant `dvplExtension = ".dvpl"`. -/
def dvplExtension : Str := ['.', 'd', 'v', 'p', 'l']

/-- The mode string `"compress"`. -/
def strCompress : Str := ['c', 'o', 'm', 'p', 'r', 'e', 's', 's']

/-- The mode string `"decompress"`. -/
def strDecompress : Str := ['d', 'e', 'c', 'o', 'm', 'p', 'r', 'e', 's', 's']

/-- The configuration shared across a walk (`Config` in
`common/utils/helper.go`; the `Silent`/`Verbose` field only governs
printing). -/
structure Config where
  mode : Str
  keepOriginals : Bool
  path : Str
  ignore : Str
  ignoreExt : Bool
  silent : Bool

def splitCommaAux : Str → Str → List Str
  | [], acc => [acc.reverse]
  | ch :: rest, acc =>
    if ch = ',' then acc.reverse :: splitCommaAux rest []
    else splitCommaAux rest (ch :: acc)

/-- Model of Go `strings.Split(s, ",")`. -/
def splitComma (s : Str) : List Str := splitCommaAux s []

def extRev : Str → Str → Str
  | [], _ => []
  | ch :: rest, acc =>
    if ch = '/' then []
    else if ch = '.' then '.' :: acc
    else extRev rest (ch :: acc)

/-- Model of Go `filepath.Ext`: the suffix beginning at the final dot in
the final slash-separated element of the path, empty when there is no
dot (path separator `'/'`). -/
def filepathExt (path : Str) : Str := extRev path.reverse []

/-- `strings.HasSuffix(path, dvplExtension)`. -/
def hasDvplSuffix (path : Str) : Bool := dvplExtension.isSuffixOf path

/-- Model of Go `strings.TrimSuffix`. -/
def trimSuffix (s suf : Str) : Str :=
  if suf.isSuffixOf s then s.take (s.length - suf.length) else s

/-- The `shouldIgnore` computation of `ProcessFiles`: the ignore map is
built only when `config.Ignore` is non-empty, then queried with the
file's extension. -/
def shouldIgnoreB (cfg : Config) (path : Str) : Bool :=
  if cfg.ignore = [] then false
  else (splitComma cfg.ignore).contains (filepathExt path)

/-- A filesystem side effect performed by a visit. -/
inductive FsOp where
  | readF (p : Str)
  | writeF (p : Str) (data : List Nat)
  | removeF (p : Str)
deriving DecidableEq

/-- Outcome of visiting one file: a Go panic, or counter increments
`(success, failure, ignored)` together with the trace of filesystem
operations the visit performed. -/
inductive VisitResult where
  | panic
  | ok (counts : Nat × Nat × Nat) (ops : List FsOp)
deriving DecidableEq

/-- The file branch of `ProcessFiles` in `common/utils/helper.go`
(lines 169-231): decide eligibility from the mode, the `.dvpl` suffix
and the ignore set; if ineligible only `ignoredCount` is incremented and
nothing is read or written; otherwise read, convert, write
`path+".dvpl"` (compress) or the path with `".dvpl"` stripped
(decompress), and delete the original unless `keepOriginals`.  A codec
failure counts one failure and writes nothing. -/
def processFileVisit (lz : Lz4) (cfg : Config) (path : Str) (fileData : List Nat) :
    VisitResult :=
  let isDecompression := decide (cfg.mode = strDecompress) && hasDvplSuffix path
  let isCompression := decide (cfg.mode = strCompress) && !hasDvplSuffix path
  if !shouldIgnoreB cfg path && (isDecompression || isCompression) then
    if isCompression then
      match CompressDVPL lz fileData with
      | .error _ => .ok (0, 1, 0) [.readF path]
      | .ok processedBlock =>
        .ok (1, 0, 0) ([.readF path, .writeF (path ++ dvplExtension) processedBlock] ++
          (if cfg.keepOriginals then [] else [.removeF path]))
    else
      match DecompressDVPL lz fileData with
      | .panic => .panic
      | .err _ => .ok (0, 1, 0) [.readF path]
      | .ok processedBlock =>
        .ok (1, 0, 0) ([.readF path, .writeF (trimSuffix path dvplExtension) processedBlock] ++
          (if cfg.keepOriginals then [] else [.removeF path]))
  else .ok (0, 0, 1) []

/-- The file branch of `ProcessFiles` in the `utils` revision carrying
the self-skip (src/unnamed/part_001, lines 177-185): before any
eligibility test, a file whose path equals the running executable's path
only increments `ignoredCount`; the rest of the branch is identical to
the `helper.go` one. -/
def processFileVisitSkipExe (lz : Lz4) (cfg : Config) (executablePath path : Str)
    (fileData : List Nat) : VisitResult :=
  if path = executablePath then .ok (0, 0, 1) []
  else processFileVisit lz cfg path fileData

/-- The file branch of `VerifyDVPLFiles` in `common/utils/helper.go`:
non-`.dvpl` files are ignored; otherwise the file is read and
decompressed purely for validation, with nothing written or deleted. -/
def verifyFileVisit (lz : Lz4) (path : Str) (fileData : List Nat) : VisitResult :=
  if !hasDvplSuffix path then .ok (0, 0, 1) []
  else
    match DecompressDVPL lz fileData with
    | .panic => .panic
    | .err _ => .ok (0, 1, 0) [.readF path]
    | .ok _ => .ok (1, 0, 0) [.readF path]

/-- The file branch of `VerifyDVPLFiles` in the revision carrying the
self-skip (src/unnamed/part_001, lines 303-343): the executable-path
check comes before the suffix check. -/
def verifyFileVisitSkipExe (lz : Lz4) (executablePath path : Str)
    (fileData : List Nat) : VisitResult :=
  if path = executablePath then .ok (0, 0, 1) []
  else verifyFileVisit lz path fileData

theorem lzTake_wf : Lz4.Wf lzTake := by
  intro src n r h
  cases h
  exact List.length_take_le n src

/-!  Little-endian encode/decode lemmas. -/

theorem le32_arith (v : Nat) :
    v % 256 ||| ((v >>> 8) % 256) <<< 8 ||| ((v >>> 16) % 256) <<< 16 |||
      ((v >>> 24) % 256) <<< 24 = v % 2 ^ 32 := by
  have h256 : (256 : Nat) = 2 ^ 8 := by norm_num
  apply Nat.eq_of_testBit_eq
  intro i
  simp only [h256, Nat.testBit_or, Nat.testBit_shiftLeft, Nat.testBit_mod_two_pow,
    Nat.testBit_shiftRight, ge_iff_le]
  rcases Nat.lt_or_ge i 8 with h8 | h8
  · rw [decide_eq_true (show i < 8 from h8), decide_eq_false (show ¬ 8 ≤ i by omega),
      decide_eq_false (show ¬ 16 ≤ i by omega), decide_eq_false (show ¬ 24 ≤ i by omega),
      decide_eq_true (show i < 32 by omega)]
    simp
  rcases Nat.lt_or_ge i 16 with h16 | h16
  · have e : 8 + (i - 8) = i := by omega
    rw [e, decide_eq_false (show ¬ i < 8 by omega), decide_eq_true (show 8 ≤ i from h8),
      decide_eq_true (show i - 8 < 8 by omega), decide_eq_false (show ¬ 16 ≤ i by omega),
      decide_eq_false (show ¬ 24 ≤ i by omega), decide_eq_true (show i < 32 by omega)]
    simp
  rcases Nat.lt_or_ge i 24 with h24 | h24
  · have e : 16 + (i - 16) = i := by omega
    rw [e, decide_eq_false (show ¬ i < 8 by omega), decide_eq_true (show 8 ≤ i from h8),
      decide_eq_false (show ¬ i - 8 < 8 by omega), decide_eq_true (show 16 ≤ i from h16),
      decide_eq_true (show i - 16 < 8 by omega), decide_eq_false (show ¬ 24 ≤ i by omega),
      decide_eq_true (show i < 32 by omega)]
    simp
  rcases Nat.lt_or_ge i 32 with h32 | h32
  · have e : 24 + (i - 24) = i := by omega
    rw [e, decide_eq_false (show ¬ i < 8 by omega), decide_eq_true (show 8 ≤ i from h8),
      decide_eq_false (show ¬ i - 8 < 8 by omega), decide_eq_true (show 16 ≤ i from h16),
      decide_eq_false (show ¬ i - 16 < 8 by omega), decide_eq_true (show 24 ≤ i from h24),
      decide_eq_true (show i - 24 < 8 by omega), decide_eq_true (show i < 32 by omega)]
    simp
  · rw [decide_eq_false (show ¬ i < 8 by omega), decide_eq_false (show ¬ i - 8 < 8 by omega),
      decide_eq_false (show ¬ i - 16 < 8 by omega), decide_eq_false (show ¬ i - 24 < 8 by omega),
      decide_eq_false (show ¬ i < 32 by omega)]
    simp

theorem writeLittleEndianUint32_mod (v : Nat) :
    writeLittleEndianUint32 (v % 2 ^ 32) = writeLittleEndianUint32 v := by
  unfold writeLittleEndianUint32
  have h0 : v % 2 ^ 32 % 256 = v % 256 := Nat.mod_mod_of_dvd v (by norm_num)
  have h8 : (v % 2 ^ 32) >>> 8 % 256 = v >>> 8 % 256 := by
    rw [Nat.shiftRight_eq_div_pow, Nat.shiftRight_eq_div_pow,
      show (2 : Nat) ^ 32 = 2 ^ 8 * 2 ^ 24 by norm_num, Nat.mod_mul_right_div_self]
    exact Nat.mod_mod_of_dvd _ (by norm_num)
  have h16 : (v % 2 ^ 32) >>> 16 % 256 = v >>> 16 % 256 := by
    rw [Nat.shiftRight_eq_div_pow, Nat.shiftRight_eq_div_pow,
      show (2 : Nat) ^ 32 = 2 ^ 16 * 2 ^ 16 by norm_num, Nat.mod_mul_right_div_self]
    exact Nat.mod_mod_of_dvd _ (by norm_num)
  have h24 : (v % 2 ^ 32) >>> 24 % 256 = v >>> 24 % 256 := by
    rw [Nat.shiftRight_eq_div_pow, Nat.shiftRight_eq_div_pow,
      show (2 : Nat) ^ 32 = 2 ^ 24 * 2 ^ 8 by norm_num, Nat.mod_mul_right_div_self]
    exact Nat.mod_mod_of_dvd _ (by norm_num)
  rw [h0, h8, h16, h24]

theorem createDVPLFooter_eq (o c r t : Nat) :
    createDVPLFooter o c r t = [o % 256, o >>> 8 % 256, o >>> 16 % 256, o >>> 24 % 256,
      c % 256, c >>> 8 % 256, c >>> 16 % 256, c >>> 24 % 256,
      r % 256, r >>> 8 % 256, r >>> 16 % 256, r >>> 24 % 256,
      t % 256, t >>> 8 % 256, t >>> 16 % 256, t >>> 24 % 256, 68, 86, 80, 76] := rfl

theorem createDVPLFooter_length (o c r t : Nat) : (createDVPLFooter o c r t).length = 20 := by
  rw [createDVPLFooter_eq]
  rfl

theorem createDVPLFooter_drop16 (o c r t : Nat) :
    (createDVPLFooter o c r t).drop 16 = dvplFooterBytes := by
  rw [createDVPLFooter_eq]
  rfl

theorem readLE_createDVPLFooter_0 (o c r t : Nat) :
    readLittleEndianUint32 (createDVPLFooter o c r t) 0 = o % 2 ^ 32 := by
  rw [createDVPLFooter_eq]
  exact le32_arith o

theorem readLE_createDVPLFooter_4 (o c r t : Nat) :
    readLittleEndianUint32 (createDVPLFooter o c r t) 4 = c % 2 ^ 32 := by
  rw [createDVPLFooter_eq]
  exact le32_arith c

theorem readLE_createDVPLFooter_8 (o c r t : Nat) :
    readLittleEndianUint32 (createDVPLFooter o c r t) 8 = r % 2 ^ 32 := by
  rw [createDVPLFooter_eq]
  exact le32_arith r

theorem readLE_createDVPLFooter_12 (o c r t : Nat) :
    readLittleEndianUint32 (createDVPLFooter o c r t) 12 = t % 2 ^ 32 := by
  rw [createDVPLFooter_eq]
  exact le32_arith t

/-!  Decomposition lemmas for a container split as payload ++ footer. -/

theorem readDVPLFooter_append (xs f : List Nat) (hf : f.length = 20)
    (hm : f.drop 16 = dvplFooterBytes) :
    readDVPLFooter (xs ++ f) = .ok ⟨readLittleEndianUint32 f 0, readLittleEndianUint32 f 4,
      readLittleEndianUint32 f 8, readLittleEndianUint32 f 12⟩ := by
  unfold readDVPLFooter
  have hlen : (xs ++ f).length = xs.length + 20 := by simp [hf]
  have hdrop : (xs ++ f).length - dvplFooterSize = xs.length := by
    simp [hlen, dvplFooterSize]
  rw [if_neg (by rw [hlen]; simp [dvplFooterSize])]
  rw [hdrop, List.drop_left]
  rw [if_neg (by simp [hm, hf, dvplFooterSize])]

theorem DecompressDVPL_append (lz : Lz4) (xs f : List Nat) (hf : f.length = 20)
    (hm : f.drop 16 = dvplFooterBytes) :
    DecompressDVPL lz (xs ++ f) =
      (if xs.length % 2 ^ 32 ≠ readLittleEndianUint32 f 4 then .err .sizeMismatch
       else if ChecksumIEEE xs ≠ readLittleEndianUint32 f 8 then .err .crcMismatch
       else if readLittleEndianUint32 f 12 = dvplTypeNone then
         if readLittleEndianUint32 f 0 ≠ readLittleEndianUint32 f 4 ∨
             readLittleEndianUint32 f 12 ≠ dvplTypeNone then .err .typeSizeMismatch
         else .ok xs
       else if readLittleEndianUint32 f 12 = dvplTypeLZ4 then
         match lz.uncompressBlock xs (readLittleEndianUint32 f 0) with
         | .error _ => .err .lz4Error
         | .ok de =>
           if de.length % 2 ^ 32 ≠ readLittleEndianUint32 f 0 then .err .decodeSizeMismatch
           else .ok de
       else .err .unknownFormat) := by
  unfold DecompressDVPL
  rw [readDVPLFooter_append xs f hf hm]
  have htake : (xs ++ f).take ((xs ++ f).length - dvplFooterSize) = xs := by
    have h : (xs ++ f).length - dvplFooterSize = xs.length := by
      simp [hf, dvplFooterSize]
    rw [h, List.take_left]
  simp only [htake]

/-!  CRC32 single-byte-difference detection.  The per-bit step of the
reflected CRC32 is a bijection on 32-bit states, so two byte streams
that differ in exactly one byte have different checksums. -/

theorem crcStep_lt {s : Nat} (h : s < 2 ^ 32) : crcStep s < 2 ^ 32 := by
  unfold crcStep
  split
  · exact Nat.xor_lt_two_pow (by omega) (by decide)
  · omega

theorem crcUnstep_crcStep {s : Nat} (h : s < 2 ^ 32) : crcUnstep (crcStep s) = s := by
  have hdiv : s / 2 < 2 ^ 31 := by omega
  have htd : (s / 2).testBit 31 = false := Nat.testBit_lt_two_pow hdiv
  by_cases hp : s % 2 = 1
  · have hstep : crcStep s = s / 2 ^^^ crcPoly := by rw [crcStep, if_pos hp]
    have ht : (s / 2 ^^^ crcPoly).testBit 31 = true := by
      rw [Nat.testBit_xor, htd]
      decide
    rw [hstep, crcUnstep, if_pos ht, Nat.xor_assoc, Nat.xor_self, Nat.xor_zero]
    omega
  · have hstep : crcStep s = s / 2 := by rw [crcStep, if_neg hp]
    rw [hstep, crcUnstep, htd]
    simp only [Bool.false_eq_true, if_false]
    omega

theorem crcStep_inj {s1 s2 : Nat} (h1 : s1 < 2 ^ 32) (h2 : s2 < 2 ^ 32)
    (he : crcStep s1 = crcStep s2) : s1 = s2 := by
  have h := congrArg crcUnstep he
  rwa [crcUnstep_crcStep h1, crcUnstep_crcStep h2] at h

theorem xor_left_cancel {a b1 b2 : Nat} (h : a ^^^ b1 = a ^^^ b2) : b1 = b2 := by
  have h2 := congrArg (fun x => a ^^^ x) h
  simpa [← Nat.xor_assoc] using h2

theorem xor_right_cancel {a1 a2 b : Nat} (h : a1 ^^^ b = a2 ^^^ b) : a1 = a2 := by
  have h2 := congrArg (fun x => x ^^^ b) h
  simpa [Nat.xor_assoc] using h2

theorem crcStepIter_lt (n : Nat) {s : Nat} (h : s < 2 ^ 32) : crcStep^[n] s < 2 ^ 32 := by
  induction n generalizing s with
  | zero => exact h
  | succ n ih =>
    rw [Function.iterate_succ_apply]
    exact ih (crcStep_lt h)

theorem crcStepIter_inj (n : Nat) {x y : Nat} (hx : x < 2 ^ 32) (hy : y < 2 ^ 32)
    (h : crcStep^[n] x = crcStep^[n] y) : x = y := by
  induction n generalizing x y with
  | zero => exact h
  | succ n ih =>
    rw [Function.iterate_succ_apply, Function.iterate_succ_apply] at h
    exact crcStep_inj hx hy (ih (crcStep_lt hx) (crcStep_lt hy) h)

theorem crcByte_iterate (s b : Nat) : crcByte s b = crcStep^[8] (s ^^^ b) := rfl

theorem crcByte_lt {s b : Nat} (hs : s < 2 ^ 32) (hb : b < 2 ^ 32) : crcByte s b < 2 ^ 32 := by
  rw [crcByte_iterate]
  exact crcStepIter_lt 8 (Nat.xor_lt_two_pow hs hb)

theorem crcByte_inj_state {s1 s2 b : Nat} (h1 : s1 < 2 ^ 32) (h2 : s2 < 2 ^ 32)
    (hb : b < 2 ^ 32) (he : crcByte s1 b = crcByte s2 b) : s1 = s2 := by
  rw [crcByte_iterate, crcByte_iterate] at he
  exact xor_right_cancel
    (crcStepIter_inj 8 (Nat.xor_lt_two_pow h1 hb) (Nat.xor_lt_two_pow h2 hb) he)

theorem crcByte_inj_byte {s b1 b2 : Nat} (hs : s < 2 ^ 32) (hb1 : b1 < 2 ^ 32)
    (hb2 : b2 < 2 ^ 32) (he : crcByte s b1 = crcByte s b2) : b1 = b2 := by
  rw [crcByte_iterate, crcByte_iterate] at he
  exact xor_left_cancel
    (crcStepIter_inj 8 (Nat.xor_lt_two_pow hs hb1) (Nat.xor_lt_two_pow hs hb2) he)

theorem crcLoop_lt {l : List Nat} {s : Nat} (hs : s < 2 ^ 32)
    (hl : ∀ x ∈ l, x < 2 ^ 32) : crcLoop s l < 2 ^ 32 := by
  induction l generalizing s with
  | nil => exact hs
  | cons b rest ih =>
    exact ih (crcByte_lt hs (hl b (by simp))) (fun x hx => hl x (by simp [hx]))

theorem crcLoop_inj_state {l : List Nat} {s1 s2 : Nat} (hl : ∀ x ∈ l, x < 2 ^ 32)
    (h1 : s1 < 2 ^ 32) (h2 : s2 < 2 ^ 32) (he : crcLoop s1 l = crcLoop s2 l) : s1 = s2 := by
  induction l generalizing s1 s2 with
  | nil => exact he
  | cons b rest ih =>
    have hb : b < 2 ^ 32 := hl b (by simp)
    exact crcByte_inj_state h1 h2 hb
      (ih (fun x hx => hl x (by simp [hx])) (crcByte_lt h1 hb) (crcByte_lt h2 hb) he)

theorem crcLoop_cons (s b : Nat) (l : List Nat) :
    crcLoop s (b :: l) = crcLoop (crcByte s b) l := rfl

theorem crcLoop_append (s : Nat) (l1 l2 : List Nat) :
    crcLoop s (l1 ++ l2) = crcLoop (crcLoop s l1) l2 := by
  induction l1 generalizing s with
  | nil => rfl
  | cons b rest ih => exact ih (crcByte s b)

theorem ChecksumIEEE_flip_ne (pre suf : List Nat) (b1 b2 : Nat)
    (hpre : ∀ x ∈ pre, x < 2 ^ 32) (hb1 : b1 < 2 ^ 32) (hb2 : b2 < 2 ^ 32)
    (hsuf : ∀ x ∈ suf, x < 2 ^ 32) (hne : b1 ≠ b2) :
    ChecksumIEEE (pre ++ b1 :: suf) ≠ ChecksumIEEE (pre ++ b2 :: suf) := by
  intro he
  unfold ChecksumIEEE at he
  have he2 : crcLoop 0xFFFFFFFF (pre ++ b1 :: suf) = crcLoop 0xFFFFFFFF (pre ++ b2 :: suf) :=
    xor_left_cancel he
  rw [crcLoop_append, crcLoop_append, crcLoop_cons, crcLoop_cons] at he2
  have hs : crcLoop 0xFFFFFFFF pre < 2 ^ 32 := crcLoop_lt (by norm_num) hpre
  exact hne (crcByte_inj_byte hs hb1 hb2
    (crcLoop_inj_state hsuf (crcByte_lt hs hb1) (crcByte_lt hs hb2) he2))

theorem xor_two_pow_ne (b j : Nat) : b ^^^ 2 ^ j ≠ b := by
  intro h
  have h2 := congrArg (fun x => b ^^^ x) h
  simp only [← Nat.xor_assoc, Nat.xor_self, Nat.zero_xor] at h2
  exact (Nat.two_pow_pos j).ne' h2

/-!  Value bounds. -/

theorem getD_lt_256 {l : List Nat} (h : ∀ x ∈ l, x < 256) (i : Nat) : l.getD i 0 < 256 := by
  induction l generalizing i with
  | nil =>
    rw [List.getD_nil]
    norm_num
  | cons a t ih =>
    cases i with
    | zero =>
      rw [List.getD_cons_zero]
      exact h a (by simp)
    | succ n =>
      rw [List.getD_cons_succ]
      exact ih (fun x hx => h x (by simp [hx])) n

theorem readLE_lt {f : List Nat} (h : ∀ x ∈ f, x < 256) (off : Nat) :
    readLittleEndianUint32 f off < 2 ^ 32 := by
  unfold readLittleEndianUint32
  have e8 : f.getD (off + 1) 0 <<< 8 = f.getD (off + 1) 0 * 256 := by
    rw [Nat.shiftLeft_eq]
  have e16 : f.getD (off + 2) 0 <<< 16 = f.getD (off + 2) 0 * 65536 := by
    rw [Nat.shiftLeft_eq]
  have e24 : f.getD (off + 3) 0 <<< 24 = f.getD (off + 3) 0 * 16777216 := by
    rw [Nat.shiftLeft_eq]
  have h0 := getD_lt_256 h off
  have h1 := getD_lt_256 h (off + 1)
  have h2 := getD_lt_256 h (off + 2)
  have h3 := getD_lt_256 h (off + 3)
  have b0 : f.getD off 0 < 2 ^ 32 := by omega
  have b8 : f.getD (off + 1) 0 <<< 8 < 2 ^ 32 := by
    rw [e8]
    omega
  have b16 : f.getD (off + 2) 0 <<< 16 < 2 ^ 32 := by
    rw [e16]
    omega
  have b24 : f.getD (off + 3) 0 <<< 24 < 2 ^ 32 := by
    rw [e24]
    omega
  exact Nat.or_lt_two_pow (Nat.or_lt_two_pow (Nat.or_lt_two_pow b0 b8) b16) b24

theorem ChecksumIEEE_lt {l : List Nat} (hl : ∀ x ∈ l, x < 2 ^ 32) : ChecksumIEEE l < 2 ^ 32 := by
  unfold ChecksumIEEE
  exact Nat.xor_lt_two_pow (by norm_num) (crcLoop_lt (by norm_num) hl)

theorem bytes_lt_u32 {l : List Nat} (h : ∀ x ∈ l, x < 256) : ∀ x ∈ l, x < 2 ^ 32 :=
  fun x hx => lt_trans (h x hx) (by norm_num)

theorem readDVPLFooter_fields_lt {cont : List Nat} {f : DVPLFooter}
    (hbytes : ∀ x ∈ cont, x < 256) (hfoot : readDVPLFooter cont = .ok f) :
    f.originalSize < 2 ^ 32 ∧ f.compressedSize < 2 ^ 32 ∧
      f.crc32 < 2 ^ 32 ∧ f.typeVal < 2 ^ 32 := by
  unfold readDVPLFooter at hfoot
  by_cases h1 : cont.length < dvplFooterSize
  · rw [if_pos h1] at hfoot
    exact absurd hfoot (by simp)
  rw [if_neg h1] at hfoot
  dsimp only at hfoot
  by_cases h2 : (cont.drop (cont.length - dvplFooterSize)).drop 16 ≠ dvplFooterBytes ∨
      (cont.drop (cont.length - dvplFooterSize)).length ≠ dvplFooterSize
  · rw [if_pos h2] at hfoot
    exact absurd hfoot (by simp)
  rw [if_neg h2] at hfoot
  injection hfoot with hfoot
  have hfb : ∀ x ∈ cont.drop (cont.length - dvplFooterSize), x < 256 :=
    fun x hx => hbytes x (List.mem_of_mem_drop hx)
  rw [← hfoot]
  exact ⟨readLE_lt hfb 0, readLE_lt hfb 4, readLE_lt hfb 8, readLE_lt hfb 12⟩

theorem readDVPLFooter_append_bad (xs f : List Nat) (hf : f.length = 20)
    (hm : f.drop 16 ≠ dvplFooterBytes) :
    readDVPLFooter (xs ++ f) = .err .invalidFooter := by
  unfold readDVPLFooter
  have hlen : (xs ++ f).length = xs.length + 20 := by simp [hf]
  have hdrop : (xs ++ f).length - dvplFooterSize = xs.length := by
    simp [hlen, dvplFooterSize]
  rw [if_neg (by rw [hlen]; simp [dvplFooterSize])]
  rw [hdrop, List.drop_left]
  rw [if_pos (Or.inl hm)]

theorem DecompressDVPL_append_bad (lz : Lz4) (xs f : List Nat) (hf : f.length = 20)
    (hm : f.drop 16 ≠ dvplFooterBytes) :
    DecompressDVPL lz (xs ++ f) = .err .invalidFooter := by
  unfold DecompressDVPL
  rw [readDVPLFooter_append_bad xs f hf hm]

/-!  The claims. -/

/-- Claim C2: the spec says a container shorter than 20 bytes, or whose
last 4 bytes are not `DVPL`, fails with `InvalidFooter` rather than
crashing.  The bad-magic half holds, but the short half does not: for
any buffer shorter than 20 bytes `readDVPLFooter` evaluates
`buffer[len(buffer)-20:]` with a negative low bound and Go panics with a
slice-bounds violation before its own (dead) length check can run.  This
theorem evaluates the model at the failing inputs: the empty buffer and
a 5-byte buffer panic, while a 20-byte buffer with a wrong magic does
return `InvalidFooter`. -/
theorem claim2_short_input_panics :
    DecompressDVPL lzTake [] = .panic ∧
    DecompressDVPL lzTake [0, 1, 2, 3, 4] = .panic ∧
    DecompressDVPL lzTake (List.replicate 20 0) = .err .invalidFooter :=
  ⟨rfl, rfl, by decide⟩

/-- Claim C3: `CompressDVPL b` returns the LZ4-compressed bytes `c`
followed by the 20-byte footer whose little-endian uint32 fields are
`len b`, `len c`, `CRC32-IEEE c` and the type tag 2, then the magic; in
particular the decoded type field is always 2, never the stored tag 0.
Hypotheses: the LZ4 call succeeds with output `c` (with a bound-sized
destination buffer that is the library's documented behaviour), the
lengths fit in a uint32 and the compressed output consists of bytes. -/
theorem claim3_compress_layout (lz : Lz4) (b c : List Nat)
    (h1 : lz.compressBlock b = .ok c)
    (hb : b.length < 2 ^ 32) (hcl : c.length < 2 ^ 32)
    (hc : ∀ x ∈ c, x < 256) :
    CompressDVPL lz b = .ok (c ++ (writeLittleEndianUint32 b.length ++
        writeLittleEndianUint32 c.length ++ writeLittleEndianUint32 (ChecksumIEEE c) ++
        writeLittleEndianUint32 dvplTypeLZ4 ++ dvplFooterBytes)) ∧
      readDVPLFooter (c ++ (writeLittleEndianUint32 b.length ++
        writeLittleEndianUint32 c.length ++ writeLittleEndianUint32 (ChecksumIEEE c) ++
        writeLittleEndianUint32 dvplTypeLZ4 ++ dvplFooterBytes)) =
        .ok ⟨b.length, c.length, ChecksumIEEE c, dvplTypeLZ4⟩ ∧
      dvplTypeLZ4 ≠ dvplTypeNone := by
  have hfc : writeLittleEndianUint32 b.length ++ writeLittleEndianUint32 c.length ++
      writeLittleEndianUint32 (ChecksumIEEE c) ++ writeLittleEndianUint32 dvplTypeLZ4 ++
      dvplFooterBytes = createDVPLFooter b.length c.length (ChecksumIEEE c) dvplTypeLZ4 := rfl
  have hcrc_lt : ChecksumIEEE c < 2 ^ 32 := ChecksumIEEE_lt (bytes_lt_u32 hc)
  refine ⟨?_, ?_, by decide⟩
  · have hred : CompressDVPL lz b = .ok (c ++ createDVPLFooter (b.length % 2 ^ 32)
        (c.length % 2 ^ 32) (ChecksumIEEE c) dvplTypeLZ4) := by
      unfold CompressDVPL
      rw [h1]
    rw [hred, hfc]
    unfold createDVPLFooter
    rw [writeLittleEndianUint32_mod, writeLittleEndianUint32_mod]
  · rw [hfc, readDVPLFooter_append c _ (createDVPLFooter_length _ _ _ _)
      (createDVPLFooter_drop16 _ _ _ _)]
    rw [readLE_createDVPLFooter_0, readLE_createDVPLFooter_4, readLE_createDVPLFooter_8,
      readLE_createDVPLFooter_12]
    rw [Nat.mod_eq_of_lt hb, Nat.mod_eq_of_lt hcl, Nat.mod_eq_of_lt hcrc_lt,
      Nat.mod_eq_of_lt (show dvplTypeLZ4 < 2 ^ 32 by decide)]

/-- Claim C4: for a container whose footer decodes with type 0, whose
payload length matches `compressed_size` and whose CRC matches,
decompression fails with `TypeSizeMismatch` exactly when
`original_size ≠ compressed_size`, and otherwise returns the payload
unchanged. -/
theorem claim4_stored_branch (lz : Lz4) (payload : List Nat) (o c r : Nat)
    (ho : o < 2 ^ 32) (hcv : c < 2 ^ 32)
    (hbytes : ∀ x ∈ payload, x < 256)
    (hlen : payload.length % 2 ^ 32 = c)
    (hcrc : ChecksumIEEE payload = r) :
    DecompressDVPL lz (payload ++ createDVPLFooter o c r dvplTypeNone) =
      if o ≠ c then .err .typeSizeMismatch else .ok payload := by
  have hr : r < 2 ^ 32 := hcrc ▸ ChecksumIEEE_lt (bytes_lt_u32 hbytes)
  rw [DecompressDVPL_append lz payload _ (createDVPLFooter_length _ _ _ _)
    (createDVPLFooter_drop16 _ _ _ _)]
  rw [readLE_createDVPLFooter_0, readLE_createDVPLFooter_4, readLE_createDVPLFooter_8,
    readLE_createDVPLFooter_12]
  rw [Nat.mod_eq_of_lt ho, Nat.mod_eq_of_lt hcv, Nat.mod_eq_of_lt hr]
  rw [if_neg (by simp only [ne_eq, not_not]; exact hlen)]
  rw [if_neg (by simp only [ne_eq, not_not]; exact hcrc)]
  rw [if_pos (by decide : dvplTypeNone % 2 ^ 32 = dvplTypeNone)]
  rcases eq_or_ne o c with he | hne
  · rw [if_neg (by simp [he, dvplTypeNone]), if_neg (by simp [he])]
  · rw [if_pos (Or.inl hne), if_pos hne]

/-- Claim C5: a container whose footer decodes but whose payload length
does not match the `compressed_size` field fails with `SizeMismatch`,
for every value of the `crc32` field (in particular for mismatching
ones), which is the observable content of "the length check runs before
the checksum is computed or compared". -/
theorem claim5_size_before_crc (lz : Lz4) (payload : List Nat) (o c r t : Nat)
    (h : payload.length % 2 ^ 32 ≠ c % 2 ^ 32) :
    DecompressDVPL lz (payload ++ createDVPLFooter o c r t) = .err .sizeMismatch := by
  rw [DecompressDVPL_append lz payload _ (createDVPLFooter_length _ _ _ _)
    (createDVPLFooter_drop16 _ _ _ _)]
  rw [readLE_createDVPLFooter_4]
  rw [if_pos h]

/-- Claim C7: per-buffer verification is decompression with the output
discarded (`_, err = dvpl.DecompressDVPL(fileData)` in
`VerifyDVPLFiles`): it succeeds exactly when decompression succeeds, and
when both fail they fail with the same error kind. -/
theorem claim7_verify_equiv (lz : Lz4) (buffer : List Nat) :
    ((∃ out, DecompressDVPL lz buffer = .ok out) ↔ verifyBuffer lz buffer = .ok ()) ∧
    (∀ e, verifyBuffer lz buffer = .err e ↔ DecompressDVPL lz buffer = .err e) := by
  unfold verifyBuffer
  cases h : DecompressDVPL lz buffer <;> simp

/-- Claim C1: decompressing the result of compressing `b` returns
exactly `b`.  The LZ4 collaborator's contract enters as the two
hypotheses `h1` and `h2`: block compression (into a bound-sized
destination) succeeds with some byte output `c`, and block
decompression of `c` into a `b.length`-sized destination reproduces `b`
— which is `pierrec/lz4/v4`'s documented behaviour for every input,
including the empty one.  `hb` keeps the `uint32` size fields exact. -/
theorem claim1_roundtrip (lz : Lz4) (b c : List Nat)
    (h1 : lz.compressBlock b = .ok c)
    (h2 : lz.uncompressBlock c b.length = .ok b)
    (hb : b.length < 2 ^ 32)
    (hc : ∀ x ∈ c, x < 256) :
    compressThenDecompress lz b = .ok b := by
  have hred : compressThenDecompress lz b = DecompressDVPL lz (c ++ createDVPLFooter
      (b.length % 2 ^ 32) (c.length % 2 ^ 32) (ChecksumIEEE c) dvplTypeLZ4) := by
    unfold compressThenDecompress CompressDVPL
    rw [h1]
  rw [hred, DecompressDVPL_append lz c _ (createDVPLFooter_length _ _ _ _)
    (createDVPLFooter_drop16 _ _ _ _)]
  rw [readLE_createDVPLFooter_0, readLE_createDVPLFooter_4, readLE_createDVPLFooter_8,
    readLE_createDVPLFooter_12]
  have e1 : b.length % 2 ^ 32 % 2 ^ 32 = b.length := by
    rw [Nat.mod_mod_of_dvd _ dvd_rfl, Nat.mod_eq_of_lt hb]
  have e2 : c.length % 2 ^ 32 % 2 ^ 32 = c.length % 2 ^ 32 := Nat.mod_mod_of_dvd _ dvd_rfl
  have e3 : ChecksumIEEE c % 2 ^ 32 = ChecksumIEEE c :=
    Nat.mod_eq_of_lt (ChecksumIEEE_lt (bytes_lt_u32 hc))
  have e4 : dvplTypeLZ4 % 2 ^ 32 = dvplTypeLZ4 := by decide
  rw [e1, e2, e3, e4]
  rw [if_neg (by simp), if_neg (by simp), if_neg (by decide), if_pos (by decide : dvplTypeLZ4 = dvplTypeLZ4)]
  rw [h2]
  dsimp only
  rw [if_neg (by simp only [ne_eq, not_not]; exact Nat.mod_eq_of_lt hb)]

/-- Claim C6: flipping any single bit of any stored-payload byte of a
container that decompression accepts makes decompression fail with
`ChecksumMismatch`.  The container is written as
`pre ++ b :: suf ++ f` with a 20-byte footer `f`, so the flipped byte
`b ^^^ 2 ^ j` (bit `j < 8`) sits at an arbitrary payload position; the
footer, and hence its stored CRC, is unchanged, while the payload's
CRC32 necessarily changes because every CRC32 step is a bijection on
32-bit states. -/
theorem claim6_tamper (lz : Lz4) (pre suf f : List Nat) (b j : Nat) (out : List Nat)
    (hf : f.length = 20)
    (hpre : ∀ x ∈ pre, x < 256) (hb : b < 256) (hsuf : ∀ x ∈ suf, x < 256)
    (hj : j < 8)
    (hok : DecompressDVPL lz (pre ++ b :: suf ++ f) = .ok out) :
    DecompressDVPL lz (pre ++ (b ^^^ 2 ^ j) :: suf ++ f) = .err .crcMismatch := by
  have hassoc1 : pre ++ b :: suf ++ f = (pre ++ b :: suf) ++ f := by simp
  have hassoc2 : pre ++ (b ^^^ 2 ^ j) :: suf ++ f = (pre ++ (b ^^^ 2 ^ j) :: suf) ++ f := by
    simp
  by_cases hm : f.drop 16 = dvplFooterBytes
  · rw [hassoc1, DecompressDVPL_append lz _ f hf hm] at hok
    have hsz : (pre ++ b :: suf).length % 2 ^ 32 = readLittleEndianUint32 f 4 := by
      by_contra hcon
      rw [if_pos hcon] at hok
      simp at hok
    rw [if_neg (by simp only [ne_eq, not_not]; exact hsz)] at hok
    have hcrc : ChecksumIEEE (pre ++ b :: suf) = readLittleEndianUint32 f 8 := by
      by_contra hcon
      rw [if_pos hcon] at hok
      simp at hok
    have hflip : ChecksumIEEE (pre ++ b :: suf) ≠ ChecksumIEEE (pre ++ (b ^^^ 2 ^ j) :: suf) := by
      have hpj : (2 : Nat) ^ j < 2 ^ 32 := by
        have : (2 : Nat) ^ j ≤ 2 ^ 7 := Nat.pow_le_pow_right (by norm_num) (by omega)
        omega
    -- bound conversions and the flip inequality
      exact ChecksumIEEE_flip_ne pre suf b (b ^^^ 2 ^ j) (bytes_lt_u32 hpre)
        (by omega) (Nat.xor_lt_two_pow (by omega) hpj) (bytes_lt_u32 hsuf)
        (Ne.symm (xor_two_pow_ne b j))
    rw [hassoc2, DecompressDVPL_append lz _ f hf hm]
    rw [if_neg (by
      simp only [ne_eq, not_not]
      have hlen2 : (pre ++ (b ^^^ 2 ^ j) :: suf).length = (pre ++ b :: suf).length := by simp
      rw [hlen2, hsz])]
    rw [if_pos (by
      intro hcon
      exact hflip (hcrc.trans hcon.symm))]
  · rw [hassoc1, DecompressDVPL_append_bad lz _ f hf hm] at hok
    simp at hok

/-- Claim C10: whenever decompression succeeds, the returned buffer's
length equals the footer's `original_size` field: the stored branch
returns the payload whose length equals `compressed_size`, itself
checked equal to `original_size`, and the LZ4 branch only accepts a
result of exactly `original_size` bytes.  `hw` is the library guarantee
that `UncompressBlock` cannot produce more bytes than the destination
buffer holds, and `hlen` keeps the `uint32` comparisons exact. -/
theorem claim10_output_length (lz : Lz4) (cont out : List Nat) (f : DVPLFooter)
    (hw : Lz4.Wf lz)
    (hbytes : ∀ x ∈ cont, x < 256)
    (hlen : cont.length < 2 ^ 32)
    (hfoot : readDVPLFooter cont = .ok f)
    (hok : DecompressDVPL lz cont = .ok out) :
    out.length = f.originalSize := by
  have hfields := readDVPLFooter_fields_lt hbytes hfoot
  unfold DecompressDVPL at hok
  rw [hfoot] at hok
  dsimp only at hok
  have htl : (cont.take (cont.length - dvplFooterSize)).length = cont.length - dvplFooterSize := by
    rw [List.length_take]
    omega
  have g1 : (cont.take (cont.length - dvplFooterSize)).length % 2 ^ 32 = f.compressedSize := by
    by_contra hcon
    rw [if_pos hcon] at hok
    simp at hok
  rw [if_neg (by simp only [ne_eq, not_not]; exact g1)] at hok
  have g2 : ChecksumIEEE (cont.take (cont.length - dvplFooterSize)) = f.crc32 := by
    by_contra hcon
    rw [if_pos hcon] at hok
    simp at hok
  rw [if_neg (by simp only [ne_eq, not_not]; exact g2)] at hok
  by_cases t0 : f.typeVal = dvplTypeNone
  · rw [if_pos t0] at hok
    by_cases m : f.originalSize ≠ f.compressedSize ∨ f.typeVal ≠ dvplTypeNone
    · rw [if_pos m] at hok
      simp at hok
    · rw [if_neg m] at hok
      push_neg at m
      injection hok with hout
      have h20 : dvplFooterSize = 20 := rfl
      rw [← hout, htl, m.1]
      rw [← g1, htl]
      rw [h20] at htl ⊢
      omega
  · rw [if_neg t0] at hok
    by_cases t2 : f.typeVal = dvplTypeLZ4
    · rw [if_pos t2] at hok
      cases hu : lz.uncompressBlock (cont.take (cont.length - dvplFooterSize)) f.originalSize with
      | error e =>
        rw [hu] at hok
        simp at hok
      | ok de =>
        rw [hu] at hok
        dsimp only at hok
        by_cases gd : de.length % 2 ^ 32 ≠ f.originalSize
        · rw [if_pos gd] at hok
          simp at hok
        · rw [if_neg gd] at hok
          push_neg at gd
          injection hok with hout
          have hle : de.length ≤ f.originalSize := hw _ _ _ hu
          have hfo : f.originalSize < 2 ^ 32 := hfields.1
          rw [← hout]
          omega
    · rw [if_neg t2] at hok
      simp at hok

/-- Claim C8: in a compress-mode walk whose ignore set contains
`".exe"`, the visit of a file with extension `".exe"` performs no
filesystem operation at all (it is neither read nor written, so the file
and the rest of the filesystem are untouched) and increments only
`ignored_count`. -/
theorem claim8_ignored_extension (lz : Lz4) (cfg : Config) (path : Str) (fileData : List Nat)
    (hmode : cfg.mode = strCompress)
    (hig : cfg.ignore ≠ [])
    (hmem : ['.', 'e', 'x', 'e'] ∈ splitComma cfg.ignore)
    (hext : filepathExt path = ['.', 'e', 'x', 'e']) :
    processFileVisit lz cfg path fileData = .ok (0, 0, 1) [] := by
  have hign : shouldIgnoreB cfg path = true := by
    unfold shouldIgnoreB
    rw [if_neg hig, hext]
    exact List.elem_eq_true_of_mem hmem
  unfold processFileVisit
  rw [hign]
  simp

/-- Claim C9 counterexample: the `ProcessFiles` of
`src/common/utils/helper.go` has no self-skip.  With the running
executable at `/opt/tool` and a compress walk reaching that very path,
the visit is not the ignore-only skip the claim demands: the file is
read, compressed, rewritten and removed, with `success_count` (not
`ignored_count`) incremented. -/
theorem claim9_counterexample :
    processFileVisit lzTake ⟨strCompress, false, [], [], false, false⟩
      ['/', 'o', 'p', 't', '/', 't', 'o', 'o', 'l'] [] ≠
    VisitResult.ok (0, 0, 1) [] := by decide

/-- Claim C9 as amended: in the traversal revision of
src/unnamed/part_001 (both `ProcessFiles` and `VerifyDVPLFiles`), a file
whose path equals the running executable's path is always skipped before
any eligibility test, in every mode: nothing is read or transformed and
only `ignored_count` is incremented.  The `helper.go` revision performs
no such check (see the counterexample). -/
theorem claim9_self_skip (lz : Lz4) (cfg : Config) (executablePath : Str)
    (fileData : List Nat) :
    processFileVisitSkipExe lz cfg executablePath executablePath fileData = .ok (0, 0, 1) [] ∧
    verifyFileVisitSkipExe lz executablePath executablePath fileData = .ok (0, 0, 1) [] := by
  constructor
  · unfold processFileVisitSkipExe
    rw [if_pos rfl]
  · unfold verifyFileVisitSkipExe
    rw [if_pos rfl]

/-!  Witnesses: each hypothesis-bearing claim theorem applied at a
concrete input, with every hypothesis discharged by evaluation. -/

theorem claim1_witness :
    lzTake.compressBlock [1, 2, 3] = .ok [1, 2, 3] ∧
    lzTake.uncompressBlock [1, 2, 3] 3 = .ok [1, 2, 3] ∧
    compressThenDecompress lzTake [1, 2, 3] = .ok [1, 2, 3] :=
  ⟨rfl, rfl, claim1_roundtrip lzTake [1, 2, 3] [1, 2, 3] rfl rfl (by decide) (by decide)⟩

theorem claim3_witness :
    lzTake.compressBlock [7] = .ok [7] ∧
    CompressDVPL lzTake [7] = .ok ([7] ++ (writeLittleEndianUint32 1 ++
      writeLittleEndianUint32 1 ++ writeLittleEndianUint32 (ChecksumIEEE [7]) ++
      writeLittleEndianUint32 dvplTypeLZ4 ++ dvplFooterBytes)) := by
  refine ⟨rfl, ?_⟩
  exact (claim3_compress_layout lzTake [7] [7] rfl (by decide) (by decide) (by decide)).1

theorem claim4_witness :
    ChecksumIEEE [] = 0 ∧
    DecompressDVPL lzTake ([] ++ createDVPLFooter 1 0 0 dvplTypeNone) =
      .err .typeSizeMismatch := by
  refine ⟨by decide, ?_⟩
  have h := claim4_stored_branch lzTake [] 1 0 0 (by decide) (by decide) (by decide)
    (by decide) (by decide)
  simpa using h

theorem claim5_witness :
    (([5] : List Nat).length % 2 ^ 32 ≠ 2 % 2 ^ 32) ∧
    DecompressDVPL lzTake ([5] ++ createDVPLFooter 1 2 0 dvplTypeNone) = .err .sizeMismatch :=
  ⟨by decide, claim5_size_before_crc lzTake [5] 1 2 0 dvplTypeNone (by decide)⟩

theorem claim6_witness :
    DecompressDVPL lzTake
      ([] ++ (0 : Nat) :: [] ++ createDVPLFooter 1 1 (ChecksumIEEE [0]) dvplTypeNone) =
      .ok [0] ∧
    DecompressDVPL lzTake
      ([] ++ ((0 : Nat) ^^^ 2 ^ 0) :: [] ++ createDVPLFooter 1 1 (ChecksumIEEE [0]) dvplTypeNone) =
      .err .crcMismatch := by
  constructor
  · decide
  · exact claim6_tamper lzTake [] [] (createDVPLFooter 1 1 (ChecksumIEEE [0]) dvplTypeNone)
      0 0 [0] (createDVPLFooter_length _ _ _ _) (by simp) (by norm_num) (by simp)
      (by norm_num) (by decide)

theorem claim8_witness :
    (['.', 'e', 'x', 'e'] ∈ splitComma ['.', 'e', 'x', 'e']) ∧
    filepathExt ['b', '.', 'e', 'x', 'e'] = ['.', 'e', 'x', 'e'] ∧
    processFileVisit lzTake ⟨strCompress, false, [], ['.', 'e', 'x', 'e'], false, false⟩
      ['b', '.', 'e', 'x', 'e'] [1] = .ok (0, 0, 1) [] :=
  ⟨by decide, by decide,
    claim8_ignored_extension lzTake ⟨strCompress, false, [], ['.', 'e', 'x', 'e'], false, false⟩
      ['b', '.', 'e', 'x', 'e'] [1] rfl (by decide) (by decide) (by decide)⟩

theorem claim10_witness :
    readDVPLFooter ([5] ++ createDVPLFooter 1 1 (ChecksumIEEE [5]) dvplTypeNone) =
      .ok ⟨1, 1, ChecksumIEEE [5], dvplTypeNone⟩ ∧
    DecompressDVPL lzTake ([5] ++ createDVPLFooter 1 1 (ChecksumIEEE [5]) dvplTypeNone) =
      .ok [5] ∧
    ([5] : List Nat).length = (1 : Nat) := by
  refine ⟨by decide, by decide, ?_⟩
  exact claim10_output_length lzTake ([5] ++ createDVPLFooter 1 1 (ChecksumIEEE [5]) dvplTypeNone)
    [5] ⟨1, 1, ChecksumIEEE [5], dvplTypeNone⟩ lzTake_wf (by decide) (by decide) (by decide)
    (by decide)

end Dvpl
